import Mathlib

/-!
Verification of the Cerulean-Exchange/api resolution-and-aggregation
pipeline.  The definitions below are a shallow embedding of the Python
source under `app/`: monetary amounts are modelled as exact rationals,
external calls (router reads, HTTP feeds, batched multicalls) as oracle
functions supplied to each operation, and exceptions as explicit
alternatives of small sum types.  Instrumented variants additionally
return how many strategies / which position ids were actually invoked,
so that short-circuit and call-issuance properties can be stated.
-/

namespace CeruleanApi

/-! ## Token price resolution (`app/assets/model.py`, class `Token`)

A price *strategy* (one external feed getter, or one internal routed
getter) either raises an exception or returns a numeric price.  The
configured orders (`EXTERNAL_PRICE_ORDER`, `INTERNAL_PRICE_ORDER`) are
lists of names, looked up in a fixed getters mapping; names absent from
the mapping are skipped without being invoked. -/

inductive StratResult where
  | raises : StratResult
  | value : ℚ → StratResult
deriving DecidableEq

/-- A strategy "failed": it raised, or returned a non-positive price. -/
def stratFails : StratResult → Bool
  | .raises => true
  | .value p => decide (p ≤ 0)

/-- Body of `get_price_external_source` / `get_price_internal_source`:
iterate the configured name order, skip names missing from the getters
mapping, invoke each getter in turn, catch exceptions, and return the
first strictly positive price (0 when none).  The second component
counts how many getters were actually invoked. -/
def runFamilyTrace (mapping : List (String × StratResult)) :
    List String → ℚ × Nat
  | [] => (0, 0)
  | name :: rest =>
    match mapping.lookup name with
    | none => runFamilyTrace mapping rest
    | some .raises =>
      ((runFamilyTrace mapping rest).1, (runFamilyTrace mapping rest).2 + 1)
    | some (.value p) =>
      if 0 < p then (p, 1)
      else ((runFamilyTrace mapping rest).1, (runFamilyTrace mapping rest).2 + 1)

/-- All configured strategies of a family fail (names not in the mapping
are not strategies and are ignored, as in the source loops). -/
def familyFails (mapping : List (String × StratResult)) (order : List String) : Bool :=
  order.all fun name =>
    match mapping.lookup name with
    | none => true
    | some s => stratFails s

/-- Number of getters from `order` that the family loop actually invokes
before reaching the end, i.e. the names present in the mapping. -/
def invokedCount (mapping : List (String × StratResult)) (order : List String) : Nat :=
  (order.filter fun n => (mapping.lookup n).isSome).length

/-- Environment of one `Token._update_price` run: the ignore list and the
token's symbol (the source tests `self.symbol in IGNORED_TOKEN_ADDRESSES`),
the `GET_PRICE_INTERNAL_FIRST` flag, whether `Token.find(STABLE_TOKEN_ADDRESS)`
succeeds, and each family's getters mapping plus configured order. -/
structure ResolveEnv where
  ignoredList : List String
  symbol : String
  internalFirst : Bool
  stableFound : Bool
  internalMapping : List (String × StratResult)
  internalOrder : List String
  externalMapping : List (String × StratResult)
  externalOrder : List String

/-- `get_price_internal_source`: returns 0 before any getter runs when no
stablecoin is found; otherwise runs the internal family loop. -/
def internal_source_trace (env : ResolveEnv) : ℚ × Nat :=
  if env.stableFound then runFamilyTrace env.internalMapping env.internalOrder
  else (0, 0)

/-- `get_price_external_source`: the external family loop. -/
def external_source_trace (env : ResolveEnv) : ℚ × Nat :=
  runFamilyTrace env.externalMapping env.externalOrder

/-- `Token._update_price`, instrumented: returns the finalized price, the
number of internal getters invoked, and the number of external getters
invoked.  An ignore-listed token finalizes 0 before either family runs;
otherwise the two families run in the order selected by
`GET_PRICE_INTERNAL_FIRST` and the first strictly positive family result
is finalized (0 when both families return 0). -/
def update_price_trace (env : ResolveEnv) : ℚ × Nat × Nat :=
  if env.symbol ∈ env.ignoredList then (0, 0, 0)
  else if env.internalFirst then
    let i := internal_source_trace env
    if 0 < i.1 then (i.1, i.2, 0)
    else
      let e := external_source_trace env
      (e.1, i.2, e.2)
  else
    let e := external_source_trace env
    if 0 < e.1 then (e.1, 0, e.2)
    else
      let i := internal_source_trace env
      (i.1, i.2, e.2)

lemma runFamilyTrace_fst_nonneg (mapping : List (String × StratResult)) :
    ∀ order, 0 ≤ (runFamilyTrace mapping order).1 := by
  intro order
  induction order with
  | nil => simp [runFamilyTrace]
  | cons name rest ih =>
    simp only [runFamilyTrace]
    cases h : mapping.lookup name with
    | none => simpa using ih
    | some s =>
      cases s with
      | raises => simpa using ih
      | value p =>
        by_cases hp : 0 < p
        · simp [hp, le_of_lt hp]
        · simpa [hp] using ih

lemma runFamilyTrace_fst_eq_zero_iff (mapping : List (String × StratResult)) :
    ∀ order, (runFamilyTrace mapping order).1 = 0 ↔ familyFails mapping order = true := by
  intro order
  induction order with
  | nil => simp [runFamilyTrace, familyFails]
  | cons name rest ih =>
    simp only [runFamilyTrace, familyFails, List.all_cons, Bool.and_eq_true]
    cases h : mapping.lookup name with
    | none =>
      simpa [familyFails] using ih
    | some s =>
      cases s with
      | raises =>
        simpa [stratFails, familyFails] using ih
      | value p =>
        by_cases hp : 0 < p
        · simp [hp, stratFails, not_le.mpr hp, ne_of_gt hp]
        · simpa [hp, stratFails, not_lt.mp hp, familyFails] using ih

lemma internal_source_fst_nonneg (env : ResolveEnv) :
    0 ≤ (internal_source_trace env).1 := by
  unfold internal_source_trace
  split
  · exact runFamilyTrace_fst_nonneg _ _
  · simp

lemma pick_first_positive_zero_iff (a b : ℚ) (ha : 0 ≤ a) (_hb : 0 ≤ b) :
    (if 0 < a then a else b) = 0 ↔ (a = 0 ∧ b = 0) := by
  by_cases h : 0 < a
  · have : a ≠ 0 := ne_of_gt h
    simp [h, this]
  · have ha0 : a = 0 := le_antisymm (not_lt.mp h) ha
    simp [h, ha0]

/-- C1: the resolved price is always ≥ 0; it is exactly 0 iff every
configured internal and external strategy failed (raised or returned a
non-positive value) or the token is ignore-listed; and an ignore-listed
token finalizes 0 immediately, with no strategy of either family invoked. -/
theorem C1_price_nonneg_zero_iff (env : ResolveEnv)
    (hstable : env.stableFound = true) :
    0 ≤ (update_price_trace env).1 ∧
    ((update_price_trace env).1 = 0 ↔
      (env.symbol ∈ env.ignoredList ∨
        (familyFails env.internalMapping env.internalOrder = true ∧
         familyFails env.externalMapping env.externalOrder = true))) ∧
    (env.symbol ∈ env.ignoredList → update_price_trace env = (0, 0, 0)) := by
  have hint : internal_source_trace env =
      runFamilyTrace env.internalMapping env.internalOrder := by
    simp [internal_source_trace, hstable]
  have hinn : 0 ≤ (runFamilyTrace env.internalMapping env.internalOrder).1 :=
    runFamilyTrace_fst_nonneg _ _
  have henn : 0 ≤ (runFamilyTrace env.externalMapping env.externalOrder).1 :=
    runFamilyTrace_fst_nonneg _ _
  by_cases hig : env.symbol ∈ env.ignoredList
  · refine ⟨?_, ?_, ?_⟩ <;> simp [update_price_trace, hig]
  · have hfst : (update_price_trace env).1 =
        if env.internalFirst then
          (if 0 < (runFamilyTrace env.internalMapping env.internalOrder).1 then
            (runFamilyTrace env.internalMapping env.internalOrder).1
          else (runFamilyTrace env.externalMapping env.externalOrder).1)
        else
          (if 0 < (runFamilyTrace env.externalMapping env.externalOrder).1 then
            (runFamilyTrace env.externalMapping env.externalOrder).1
          else (runFamilyTrace env.internalMapping env.internalOrder).1) := by
      by_cases hf : env.internalFirst <;>
        simp only [update_price_trace, if_neg hig, hf, if_true, if_false,
          external_source_trace, hint, Bool.false_eq_true] <;>
        split <;> simp_all
    refine ⟨?_, ?_, fun h => absurd h hig⟩
    · rw [hfst]
      by_cases hf : env.internalFirst <;> simp only [hf, if_true, if_false,
        Bool.false_eq_true] <;> split <;> assumption
    · rw [hfst]
      have key : (if env.internalFirst then
          (if 0 < (runFamilyTrace env.internalMapping env.internalOrder).1 then
            (runFamilyTrace env.internalMapping env.internalOrder).1
          else (runFamilyTrace env.externalMapping env.externalOrder).1)
        else
          (if 0 < (runFamilyTrace env.externalMapping env.externalOrder).1 then
            (runFamilyTrace env.externalMapping env.externalOrder).1
          else (runFamilyTrace env.internalMapping env.internalOrder).1)) = 0 ↔
          ((runFamilyTrace env.internalMapping env.internalOrder).1 = 0 ∧
           (runFamilyTrace env.externalMapping env.externalOrder).1 = 0) := by
        by_cases hf : env.internalFirst <;>
          simp only [hf, if_true, if_false, Bool.false_eq_true]
        · exact pick_first_positive_zero_iff _ _ hinn henn
        · rw [pick_first_positive_zero_iff _ _ henn hinn]
          tauto
      rw [key, runFamilyTrace_fst_eq_zero_iff, runFamilyTrace_fst_eq_zero_iff]
      simp [hig]

/-- Witness for C1 at a concrete environment: one configured internal
strategy raising and one external returning a positive price. -/
theorem C1_price_nonneg_zero_iff_witness :
    let env : ResolveEnv :=
      { ignoredList := ["BAD"], symbol := "GOOD", internalFirst := true,
        stableFound := true,
        internalMapping := [("direct", .raises)],
        internalOrder := ["direct"],
        externalMapping := [("_get_price_from_dexscreener", .value 3)],
        externalOrder := ["_get_price_from_dexscreener"] }
    0 ≤ (update_price_trace env).1 ∧
    ((update_price_trace env).1 = 0 ↔
      (env.symbol ∈ env.ignoredList ∨
        (familyFails env.internalMapping env.internalOrder = true ∧
         familyFails env.externalMapping env.externalOrder = true))) ∧
    (env.symbol ∈ env.ignoredList → update_price_trace env = (0, 0, 0)) :=
  C1_price_nonneg_zero_iff _ rfl

/-- Every name in `pre` is either absent from the mapping (skipped) or a
strategy that fails. -/
def preAllFail (mapping : List (String × StratResult)) (pre : List String) : Bool :=
  pre.all fun name =>
    match mapping.lookup name with
    | none => true
    | some s => stratFails s

lemma runFamilyTrace_first_success (mapping : List (String × StratResult))
    (name : String) (p : ℚ) (hp : 0 < p)
    (hname : mapping.lookup name = some (.value p)) :
    ∀ pre post, preAllFail mapping pre = true →
      runFamilyTrace mapping (pre ++ name :: post) =
        (p, invokedCount mapping pre + 1) := by
  intro pre
  induction pre with
  | nil =>
    intro post _
    simp [runFamilyTrace, hname, hp, invokedCount]
  | cons a rest ih =>
    intro post hfail
    have hfail' : preAllFail mapping rest = true := by
      have := hfail
      simp only [preAllFail, List.all_cons, Bool.and_eq_true] at this
      exact this.2
    have harec := ih post hfail'
    have hhead : ∀ s, mapping.lookup a = some s → stratFails s = true := by
      intro s hs
      have := hfail
      simp only [preAllFail, List.all_cons, Bool.and_eq_true] at this
      rw [hs] at this
      exact this.1
    cases ha : mapping.lookup a with
    | none =>
      simp [runFamilyTrace, ha, harec, invokedCount, List.filter_cons]
    | some s =>
      cases s with
      | raises =>
        simp [runFamilyTrace, ha, harec, invokedCount, List.filter_cons]
      | value q =>
        have hq : ¬ 0 < q := by
          have := hhead _ ha
          simp only [stratFails, decide_eq_true_eq] at this
          exact not_lt.mpr this
        simp [runFamilyTrace, ha, hq, harec, invokedCount, List.filter_cons]

lemma runFamilyTrace_all_fail (mapping : List (String × StratResult)) :
    ∀ order, familyFails mapping order = true →
      runFamilyTrace mapping order = (0, invokedCount mapping order) := by
  intro order
  induction order with
  | nil =>
    intro _
    simp [runFamilyTrace, invokedCount]
  | cons name rest ih =>
    intro h
    cases hn : mapping.lookup name with
    | none =>
      simp only [familyFails, List.all_cons, hn, Bool.and_eq_true] at h
      simp [runFamilyTrace, hn, ih h.2, invokedCount, List.filter_cons]
    | some s =>
      simp only [familyFails, List.all_cons, hn, Bool.and_eq_true] at h
      cases s with
      | raises =>
        simp [runFamilyTrace, hn, ih h.2, invokedCount, List.filter_cons]
      | value q =>
        have hq : ¬ 0 < q := by
          have := h.1
          simp only [stratFails, decide_eq_true_eq] at this
          exact not_lt.mpr this
        simp [runFamilyTrace, hn, hq, ih h.2, invokedCount, List.filter_cons]

/-- C3: price resolution short-circuits.  As soon as any strategy returns
a strictly positive price `p`, that price is the resolved price and no
later strategy in either family is invoked.  Four cases: the success
occurs in the family the internal-first flag tries first (then the other
family is not invoked at all), or the first family is exhausted — every
configured strategy in it fails — and the success occurs in the
second-tried family (then the strategies after it in that family are not
invoked).  In each case the successful family's configured order is
`pre ++ name :: post` with everything in `pre` failing or skipped, and the
invocation counts show exactly the strategies up to and including `name`
ran there. -/
theorem C3_short_circuit (env : ResolveEnv)
    (pre post : List String) (name : String) (p : ℚ)
    (hig : env.symbol ∉ env.ignoredList)
    (hstable : env.stableFound = true)
    (hp : 0 < p) :
    (env.internalFirst = true →
      env.internalOrder = pre ++ name :: post →
      env.internalMapping.lookup name = some (.value p) →
      preAllFail env.internalMapping pre = true →
      update_price_trace env = (p, invokedCount env.internalMapping pre + 1, 0)) ∧
    (env.internalFirst = false →
      env.externalOrder = pre ++ name :: post →
      env.externalMapping.lookup name = some (.value p) →
      preAllFail env.externalMapping pre = true →
      update_price_trace env = (p, 0, invokedCount env.externalMapping pre + 1)) ∧
    (env.internalFirst = true →
      familyFails env.internalMapping env.internalOrder = true →
      env.externalOrder = pre ++ name :: post →
      env.externalMapping.lookup name = some (.value p) →
      preAllFail env.externalMapping pre = true →
      update_price_trace env =
        (p, invokedCount env.internalMapping env.internalOrder,
         invokedCount env.externalMapping pre + 1)) ∧
    (env.internalFirst = false →
      familyFails env.externalMapping env.externalOrder = true →
      env.internalOrder = pre ++ name :: post →
      env.internalMapping.lookup name = some (.value p) →
      preAllFail env.internalMapping pre = true →
      update_price_trace env =
        (p, invokedCount env.internalMapping pre + 1,
         invokedCount env.externalMapping env.externalOrder)) := by
  refine ⟨?_, ?_, ?_, ?_⟩
  · intro hf hord hname hfail
    have hrun := runFamilyTrace_first_success env.internalMapping name p hp hname pre post hfail
    rw [← hord] at hrun
    simp [update_price_trace, hig, hf, internal_source_trace, hstable, hrun, hp]
  · intro hf hord hname hfail
    have hrun := runFamilyTrace_first_success env.externalMapping name p hp hname pre post hfail
    rw [← hord] at hrun
    simp [update_price_trace, hig, hf, external_source_trace, hrun, hp]
  · intro hf hallfail hord hname hfail
    have hi := runFamilyTrace_all_fail env.internalMapping env.internalOrder hallfail
    have hrun := runFamilyTrace_first_success env.externalMapping name p hp hname pre post hfail
    rw [← hord] at hrun
    simp [update_price_trace, hig, hf, internal_source_trace, hstable, hi,
      external_source_trace, hrun, hp]
  · intro hf hallfail hord hname hfail
    have he := runFamilyTrace_all_fail env.externalMapping env.externalOrder hallfail
    have hrun := runFamilyTrace_first_success env.internalMapping name p hp hname pre post hfail
    rw [← hord] at hrun
    simp [update_price_trace, hig, hf, internal_source_trace, hstable, he,
      external_source_trace, hrun, hp]

/-- C3 witness environment A: external-first, the first external getter
raises, the second returns 7; the internal family holds a positive-price
strategy that is never invoked. -/
def resolveEnvC3a : ResolveEnv :=
  { ignoredList := [], symbol := "TOK", internalFirst := false,
    stableFound := true,
    internalMapping := [("direct", .value 9)],
    internalOrder := ["direct"],
    externalMapping := [("_get_price_from_dexscreener", .raises),
                        ("_get_price_from_debank", .value 7)],
    externalOrder := ["_get_price_from_dexscreener", "_get_price_from_debank",
                      "_get_price_from_defillama"] }

/-- C3 witness environment B: internal-first with the single internal
strategy raising, so the internal family is exhausted; the first external
getter raises and the second returns 7. -/
def resolveEnvC3b : ResolveEnv :=
  { ignoredList := [], symbol := "TOK", internalFirst := true,
    stableFound := true,
    internalMapping := [("direct", .raises)],
    internalOrder := ["direct"],
    externalMapping := [("_get_price_from_dexscreener", .raises),
                        ("_get_price_from_debank", .value 7)],
    externalOrder := ["_get_price_from_dexscreener", "_get_price_from_debank",
                      "_get_price_from_defillama"] }

/-- Witness for C3: a first-family success invokes nothing in the other
family (result (7, 0, 2), third external getter never invoked), and a
second-family success after the first family is exhausted invokes nothing
after it (result (7, 1, 2)). -/
theorem C3_short_circuit_witness :
    update_price_trace resolveEnvC3a = (7, 0, 2) ∧
    update_price_trace resolveEnvC3b = (7, 1, 2) := by
  constructor
  · exact (C3_short_circuit resolveEnvC3a ["_get_price_from_dexscreener"]
      ["_get_price_from_defillama"] "_get_price_from_debank" 7
      (by decide) rfl (by norm_num)).2.1 rfl rfl rfl (by decide)
  · have h := (C3_short_circuit resolveEnvC3b ["_get_price_from_dexscreener"]
      ["_get_price_from_defillama"] "_get_price_from_debank" 7
      (by decide) rfl (by norm_num)).2.2.1 rfl (by decide) rfl rfl (by decide)
    exact h.trans (by decide)

/-! ## Pools (`app/pairs/model.py`, class `Pair`) -/

/-- The slice of a `Token` record that `Pair` uses: resolved USD price
and decimal precision.  `Token.find` returning `None` is modelled as
`Option.none`. -/
structure TokenInfo where
  price : ℚ
  decimals : ℕ
deriving DecidableEq

/-- `Gauge` as consumed by `Pair._update_apr`: the current-epoch reward
emission. -/
structure GaugeInfo where
  reward : ℚ
deriving DecidableEq

/-- `web3.constants.ADDRESS_ZERO`. -/
def ADDRESS_ZERO : String := "0x0000000000000000000000000000000000000000"

/-- `Pair._tvl`: add `reserve * price` for each constituent token that was
found and has a truthy, non-zero price; then, when both tokens were found,
the running total is non-zero, and one of the two prices is 0, double the
total (single-sided approximation). -/
def pair_tvl (reserve0 reserve1 : ℚ) (token0 token1 : Option TokenInfo) : ℚ :=
  let s0 : ℚ :=
    match token0 with
    | some t => if t.price ≠ 0 then reserve0 * t.price else 0
    | none => 0
  let s1 : ℚ :=
    match token1 with
    | some t => if t.price ≠ 0 then reserve1 * t.price else 0
    | none => 0
  let tvl := s0 + s1
  match token0, token1 with
  | some t0, some t1 =>
    if tvl ≠ 0 ∧ (t0.price = 0 ∨ t1.price = 0) then tvl * 2 else tvl
  | _, _ => tvl

/-- `Pair._update_apr`: when TVL is 0 the APR is left at its prior value;
otherwise, when the default reward token and the gauge are both available,
APR becomes `(reward * price) / tvl * 100 * 365`. -/
def update_apr (tvl apr : ℚ) (defaultToken : Option TokenInfo)
    (gauge : Option GaugeInfo) : ℚ :=
  if tvl = 0 then apr
  else
    match defaultToken, gauge with
    | some t, some g => g.reward * t.price / tvl * 100 * 365
    | _, _ => apr

/-- `Pair.syncup_gauge`, instrumented: when the gauge address is the
zero/none sentinel the method returns before fetching; otherwise the gauge
is fetched from chain and `_update_apr` runs.  The boolean records whether
a gauge fetch was issued. -/
def syncup_gauge_trace (gauge_address : Option String) (tvl apr : ℚ)
    (defaultToken : Option TokenInfo) (fetchGauge : String → Option GaugeInfo) :
    ℚ × Bool :=
  match gauge_address with
  | none => (apr, false)
  | some a =>
    if a = ADDRESS_ZERO then (apr, false)
    else (update_apr tvl apr defaultToken (fetchGauge a), true)

/-- `Pair.from_chain`, reserve-normalization slice: the raw chain reserves
are divided by `10 ** token.decimals` only when both `Token.find` lookups
succeed; otherwise both reserves are left raw. -/
def from_chain_reserves (reserve0 reserve1 : ℚ)
    (token0 token1 : Option TokenInfo) : ℚ × ℚ :=
  match token0, token1 with
  | some t0, some t1 =>
    (reserve0 / 10 ^ t0.decimals, reserve1 / 10 ^ t1.decimals)
  | _, _ => (reserve0, reserve1)

/-- `Pair.from_chain` then computes `data["tvl"] = cls._tvl(data, token0,
token1)` on whatever reserves the normalization step left behind. -/
def from_chain_tvl (reserve0 reserve1 : ℚ)
    (token0 token1 : Option TokenInfo) : ℚ :=
  pair_tvl (from_chain_reserves reserve0 reserve1 token0 token1).1
    (from_chain_reserves reserve0 reserve1 token0 token1).2 token0 token1

/-- C2: with both constituent tokens found and non-negative resolved
prices, TVL is the sum of reserve×price over the strictly-positively
priced tokens; with exactly one token priced the single-sided value is
doubled, with both priced nothing is doubled, and with neither priced the
TVL is 0. -/
theorem C2_tvl_policy (r0 r1 p0 p1 : ℚ) (d0 d1 : ℕ)
    (_h0 : 0 ≤ p0) (_h1 : 0 ≤ p1) :
    (0 < p0 → 0 < p1 →
      pair_tvl r0 r1 (some ⟨p0, d0⟩) (some ⟨p1, d1⟩) = r0 * p0 + r1 * p1) ∧
    (0 < p0 → p1 = 0 →
      pair_tvl r0 r1 (some ⟨p0, d0⟩) (some ⟨p1, d1⟩) = r0 * p0 * 2) ∧
    (p0 = 0 → 0 < p1 →
      pair_tvl r0 r1 (some ⟨p0, d0⟩) (some ⟨p1, d1⟩) = r1 * p1 * 2) ∧
    (p0 = 0 → p1 = 0 →
      pair_tvl r0 r1 (some ⟨p0, d0⟩) (some ⟨p1, d1⟩) = 0) := by
  refine ⟨?_, ?_, ?_, ?_⟩
  · intro hp0 hp1
    simp [pair_tvl, ne_of_gt hp0, ne_of_gt hp1]
  · intro hp0 hp1
    by_cases hr : r0 * p0 = 0
    · simp [pair_tvl, ne_of_gt hp0, hp1, hr]
    · simp [pair_tvl, ne_of_gt hp0, hp1, hr]
  · intro hp0 hp1
    by_cases hr : r1 * p1 = 0
    · simp [pair_tvl, ne_of_gt hp1, hp0, hr]
    · simp [pair_tvl, ne_of_gt hp1, hp0, hr]
  · intro hp0 hp1
    simp [pair_tvl, hp0, hp1]

/-- Witness for C2 at the spec's concrete numbers: single-sided 100@2 with
50@0 gives 400, both priced (2 and 3) gives 350, both unpriced gives 0. -/
theorem C2_tvl_policy_witness :
    pair_tvl 100 50 (some ⟨2, 18⟩) (some ⟨0, 18⟩) = 400 ∧
    pair_tvl 100 50 (some ⟨2, 18⟩) (some ⟨3, 18⟩) = 350 ∧
    pair_tvl 100 50 (some ⟨0, 18⟩) (some ⟨0, 18⟩) = 0 := by
  refine ⟨?_, ?_, ?_⟩
  · have := (C2_tvl_policy 100 50 2 0 18 18 (by norm_num) (by norm_num)).2.1
      (by norm_num) rfl
    linarith [this]
  · have := (C2_tvl_policy 100 50 2 3 18 18 (by norm_num) (by norm_num)).1
      (by norm_num) (by norm_num)
    linarith [this]
  · exact (C2_tvl_policy 100 50 0 0 18 18 le_rfl le_rfl).2.2.2 rfl rfl

/-- C4: APR update policy.  When TVL is 0, `_update_apr` leaves the APR at
its prior value (0 in a pool's lifecycle) regardless of the gauge; when
TVL is non-zero and both the default reward token and the gauge are
available, APR = reward × price / TVL × 100 × 365; and a pool whose gauge
address is the zero/none sentinel never fetches a gauge and keeps APR 0. -/
theorem C4_apr_policy (tvl apr : ℚ) (t : TokenInfo) (g : GaugeInfo)
    (dt : Option TokenInfo) (go : Option GaugeInfo) (ga : Option String)
    (fetchGauge : String → Option GaugeInfo) :
    (tvl = 0 → update_apr tvl apr dt go = apr) ∧
    (tvl ≠ 0 →
      update_apr tvl apr (some t) (some g) =
        g.reward * t.price / tvl * 100 * 365) ∧
    ((ga = none ∨ ga = some ADDRESS_ZERO) →
      syncup_gauge_trace ga tvl 0 dt fetchGauge = (0, false)) := by
  refine ⟨?_, ?_, ?_⟩
  · intro h
    simp [update_apr, h]
  · intro h
    simp [update_apr, h]
  · rintro (h | h) <;> simp [syncup_gauge_trace, h, ADDRESS_ZERO]

/-- Witness for C4 at the spec's concrete numbers: TVL 1000, reward 10,
reward-token price 5 gives APR 1825; TVL 0 leaves APR untouched. -/
theorem C4_apr_policy_witness :
    update_apr 1000 0 (some ⟨5, 18⟩) (some ⟨10⟩) = 1825 ∧
    update_apr 0 0 (some ⟨5, 18⟩) (some ⟨10⟩) = 0 ∧
    syncup_gauge_trace (some ADDRESS_ZERO) 1000 0 (some ⟨5, 18⟩)
      (fun _ => some ⟨10⟩) = (0, false) := by
  refine ⟨?_, ?_, ?_⟩
  · have := (C4_apr_policy 1000 0 ⟨5, 18⟩ ⟨10⟩ (some ⟨5, 18⟩) (some ⟨10⟩)
      none (fun _ => some ⟨10⟩)).2.1 (by norm_num)
    rw [this]
    norm_num
  · exact (C4_apr_policy 0 0 ⟨5, 18⟩ ⟨10⟩ (some ⟨5, 18⟩) (some ⟨10⟩)
      none (fun _ => some ⟨10⟩)).1 rfl
  · exact (C4_apr_policy 1000 0 ⟨5, 18⟩ ⟨10⟩ (some ⟨5, 18⟩) (some ⟨10⟩)
      (some ADDRESS_ZERO) (fun _ => some ⟨10⟩)).2.2 (Or.inr rfl)

/-- C9: reserves are decimal-normalized only when both token lookups
succeed; when either lookup fails both reserves stay raw, and the TVL is
then computed from the raw reserve of a found, priced token (with no
single-sided doubling, since that requires both tokens found). -/
theorem C9_reserve_normalization (r0 r1 : ℚ) (t0 t1 : TokenInfo)
    (hp : t0.price ≠ 0) :
    (from_chain_reserves r0 r1 (some t0) (some t1) =
      (r0 / 10 ^ t0.decimals, r1 / 10 ^ t1.decimals)) ∧
    (from_chain_reserves r0 r1 (some t0) none = (r0, r1)) ∧
    (from_chain_reserves r0 r1 none (some t1) = (r0, r1)) ∧
    (from_chain_reserves r0 r1 none none = (r0, r1)) ∧
    (from_chain_tvl r0 r1 (some t0) none = r0 * t0.price) ∧
    (from_chain_tvl r0 r1 none (some t1) =
      if t1.price ≠ 0 then r1 * t1.price else 0) := by
  refine ⟨rfl, rfl, rfl, rfl, ?_, ?_⟩
  · simp [from_chain_tvl, from_chain_reserves, pair_tvl, hp]
  · simp only [from_chain_tvl, from_chain_reserves, pair_tvl]
    split <;> simp

/-- Witness for C9: token0 found at price 2 with 6 decimals, token1 not
found; raw reserves 3000000 and 7 stay raw and TVL is 3000000×2. -/
theorem C9_reserve_normalization_witness :
    from_chain_reserves 3000000 7 (some ⟨2, 6⟩) none = (3000000, 7) ∧
    from_chain_tvl 3000000 7 (some ⟨2, 6⟩) none = 6000000 := by
  have h := C9_reserve_normalization 3000000 7 ⟨2, 6⟩ ⟨5, 18⟩ (by norm_num)
  refine ⟨h.2.1, ?_⟩
  have := h.2.2.2.2.1
  rw [this]
  norm_num

/-! ## Two-leg routed pricing (`Token._get_price_through_tokens`)

Each router `Call(...)()` either raises (`ContractLogicError` or any other
exception), returns something other than a tuple, or returns a tuple whose
first component is an arbitrary decoded value.  The first leg's output
amount is consumed only as the second leg's input, so the oracle for the
second leg already accounts for it. -/

inductive CallValue where
  | int : ℤ → CallValue
  | other : CallValue
deriving DecidableEq

inductive CallResult where
  | raise : CallResult
  | notTuple : CallResult
  | tup : CallValue → CallResult
deriving DecidableEq

/-- The guard `not token_address or not token_address.startswith("0x") or
len(token_address) != 42`, with `startswith("0x")` stated on the string's
character list so that it is kernel-computable. -/
def malformedAddress (a : String) : Prop :=
  a = "" ∨ a.data.take 2 ≠ ['0', 'x'] ∨ a.length ≠ 42

instance decMalformedAddress : DecidablePred malformedAddress := fun a => by
  unfold malformedAddress
  infer_instance

/-- The loop body of `_get_price_through_tokens` over the (already
truthiness-filtered) address list: skip empty or malformed addresses, skip
an intermediate whose first or second leg raises or is not a tuple, and
add `amountB / 10 ** stablecoin.decimals` when the second leg's amount is
an integer greater than 0. -/
def price_through_tokens_go (legA legB : String → CallResult)
    (stableDecimals : ℕ) : List String → ℚ
  | [] => 0
  | a :: rest =>
    if malformedAddress a then
      price_through_tokens_go legA legB stableDecimals rest
    else
      match legA a with
      | .raise => price_through_tokens_go legA legB stableDecimals rest
      | .notTuple => price_through_tokens_go legA legB stableDecimals rest
      | .tup _ =>
        match legB a with
        | .raise => price_through_tokens_go legA legB stableDecimals rest
        | .notTuple => price_through_tokens_go legA legB stableDecimals rest
        | .tup v =>
          (match v with
            | .int z => if 0 < z then (z : ℚ) / 10 ^ stableDecimals else 0
            | .other => 0) + price_through_tokens_go legA legB stableDecimals rest

/-- `Token._get_price_through_tokens`: first drops falsy (empty) addresses
(`[address for address in token_addresses if address]`), then runs the
routing loop. -/
def price_through_tokens (legA legB : String → CallResult) (stableDecimals : ℕ)
    (token_addresses : List String) : ℚ :=
  price_through_tokens_go legA legB stableDecimals
    (token_addresses.filter fun a => decide (a ≠ ""))

/-- USD contribution of a single intermediate address: zero unless the
address is well-formed, both legs return tuples, and the second leg's
amount is a positive integer. -/
def routeContribution (legA legB : String → CallResult) (stableDecimals : ℕ)
    (a : String) : ℚ :=
  if malformedAddress a then 0
  else
    match legA a with
    | .tup _ =>
      match legB a with
      | .tup (.int z) => if 0 < z then (z : ℚ) / 10 ^ stableDecimals else 0
      | _ => 0
    | _ => 0

lemma price_through_tokens_go_eq_sum (legA legB : String → CallResult)
    (sd : ℕ) : ∀ addrs, price_through_tokens_go legA legB sd addrs =
      (addrs.map (routeContribution legA legB sd)).sum := by
  intro addrs
  induction addrs with
  | nil => simp [price_through_tokens_go]
  | cons a rest ih =>
    rw [List.map_cons, List.sum_cons, ← ih]
    by_cases hbad : malformedAddress a
    · simp only [price_through_tokens_go, routeContribution, if_pos hbad]
      ring
    · simp only [price_through_tokens_go, routeContribution, if_neg hbad]
      cases hA : legA a with
      | raise => simp
      | notTuple => simp
      | tup v =>
        cases hB : legB a with
        | raise => simp
        | notTuple => simp
        | tup w =>
          cases w with
          | int z => simp
          | other => simp

lemma sum_map_filter_nonempty (f : String → ℚ) (hf : f "" = 0) :
    ∀ l : List String,
      ((l.filter fun a => decide (a ≠ "")).map f).sum = (l.map f).sum := by
  intro l
  induction l with
  | nil => rfl
  | cons a rest ih =>
    simp only [ne_eq, decide_not] at ih ⊢
    by_cases ha : a = ""
    · subst ha
      simp [hf, ih]
    · simp [List.filter_cons, ha, ih]

/-- C5: `_get_price_through_tokens` returns exactly the sum over the
intermediate list of the per-intermediate routed contributions; each
contribution is non-negative (only strictly positive routed amounts are
added), an intermediate whose first or second leg raises contributes 0
without disturbing the rest of the sum, and an empty or malformed address
likewise contributes 0 — the function always returns a value, never an
error. -/
theorem C5_route_error_isolation (legA legB : String → CallResult) (sd : ℕ) :
    (∀ addrs, price_through_tokens legA legB sd addrs =
      (addrs.map (routeContribution legA legB sd)).sum) ∧
    (∀ a, 0 ≤ routeContribution legA legB sd a) ∧
    (∀ a, legA a = .raise → routeContribution legA legB sd a = 0) ∧
    (∀ a, legB a = .raise → routeContribution legA legB sd a = 0) ∧
    (∀ a, malformedAddress a → routeContribution legA legB sd a = 0) := by
  refine ⟨?_, ?_, ?_, ?_, ?_⟩
  · intro addrs
    rw [price_through_tokens, price_through_tokens_go_eq_sum]
    exact sum_map_filter_nonempty _
      (by simp [routeContribution, malformedAddress]) addrs
  · intro a
    unfold routeContribution
    by_cases hbad : malformedAddress a
    · simp [hbad]
    · simp only [if_neg hbad]
      cases hA : legA a with
      | raise => simp
      | notTuple => simp
      | tup v =>
        cases hB : legB a with
        | raise => simp
        | notTuple => simp
        | tup w =>
          cases w with
          | other => simp
          | int z =>
            dsimp only
            split
            · positivity
            · exact le_refl 0
  · intro a hA
    unfold routeContribution
    by_cases hbad : malformedAddress a
    · simp [hbad]
    · simp [hbad, hA]
  · intro a hB
    unfold routeContribution
    by_cases hbad : malformedAddress a
    · simp [hbad]
    · cases hA : legA a <;> simp [hbad, hA, hB]
  · intro a hbad
    simp [routeContribution, hbad]

/-- First-leg oracle for the C5 witness: succeeds on one well-formed
address, raises on everything else. -/
def legA_w : String → CallResult :=
  fun a => if a = "0x1111111111111111111111111111111111111111"
    then .tup (.int 1) else .raise

/-- Second-leg oracle for the C5 witness: routes 30 stable units for the
good address. -/
def legB_w : String → CallResult :=
  fun a => if a = "0x1111111111111111111111111111111111111111"
    then .tup (.int 30) else .notTuple

/-- Witness for C5: one well-formed intermediate whose route succeeds with
amount 30, one whose first leg raises, and one empty address; the total is
the successful contribution alone. -/
theorem C5_route_error_isolation_witness :
    price_through_tokens legA_w legB_w 0
      ["0x1111111111111111111111111111111111111111",
       "0x2222222222222222222222222222222222222222", ""] = 30 ∧
    routeContribution legA_w legB_w 0
      "0x2222222222222222222222222222222222222222" = 0 := by
  have hbad2 : routeContribution legA_w legB_w 0
      "0x2222222222222222222222222222222222222222" = 0 :=
    (C5_route_error_isolation legA_w legB_w 0).2.2.1 _ (by decide)
  refine ⟨?_, hbad2⟩
  rw [(C5_route_error_isolation legA_w legB_w 0).1]
  have hm : ¬ malformedAddress "0x1111111111111111111111111111111111111111" := by
    decide
  have hgood : routeContribution legA_w legB_w 0
      "0x1111111111111111111111111111111111111111" = 30 := by
    rw [routeContribution, if_neg hm]
    norm_num [legA_w, legB_w]
  have hempty : routeContribution legA_w legB_w 0 "" = 0 :=
    (C5_route_error_isolation legA_w legB_w 0).2.2.2.2 "" (by decide)
  simp [hgood, hbad2, hempty]

/-! ## Vote tally (`app/voter/model.py` and `app/voter/__init__.py`) -/

/-- The gauge-votes slice of one serialized pool record, as consumed by
`calc_total_votes`: the `pair['gauge']['votes']` chain of keys is absent,
or present and parsed by `float(...)`, or present but `float(...)` raises
on it. -/
inductive VotesField where
  | absent : VotesField
  | numeric : ℚ → VotesField
  | malformed : VotesField
deriving DecidableEq

/-- The accumulation loop of `Voters.calc_total_votes`; `none` models an
exception escaping the loop (the `float(...)` call raising on a malformed
votes value). -/
def calc_total_votes_go : List VotesField → Option ℚ
  | [] => some 0
  | v :: rest =>
    match v with
    | .absent => calc_total_votes_go rest
    | .numeric q => (calc_total_votes_go rest).map (fun t => q + t)
    | .malformed => none

/-- `Voters.calc_total_votes`: one `try/except` wraps the whole loop and
returns the fallback 0 on any exception. -/
def calc_total_votes (pairs : List VotesField) : ℚ :=
  match calc_total_votes_go pairs with
  | some t => t
  | none => 0

/-- Numeric value a pool record contributes when nothing raises. -/
def votesValue : VotesField → ℚ
  | .numeric q => q
  | _ => 0

/-- `Voters.get_total_ids`: the cached `total_ids` value when present,
else the default 63 (which is also written back to the cache). -/
def get_total_ids (cacheTotalIds : Option ℕ) : ℕ :=
  match cacheTotalIds with
  | some n => n
  | none => 63

/-- One refresh cycle's chain oracles for `Voters.get_votes_casted`:
the stage-1 multicall result (`length()` and `active_period()`, `none`
when the batched call raises), the cached `total_ids`, and the per-id
`lastVoted` / `balanceOfNFT` call results (`none` when that id's entry is
missing, which raises a `KeyError` / multicall error). -/
structure VoterEnv where
  initialCall : Option (ℕ × ℕ)
  cacheTotalIds : Option ℕ
  lastVotedCall : ℕ → Option ℕ
  balanceCall : ℕ → Option ℕ

/-- Run one batched stage over a list of ids, pairing each id with its
decoded value; any missing entry fails the whole stage. -/
def collectCalls (f : ℕ → Option ℕ) : List ℕ → Option (List (ℕ × ℕ))
  | [] => some []
  | i :: rest =>
    match f i, collectCalls f rest with
    | some v, some tail => some ((i, v) :: tail)
    | _, _ => none

/-- JSON shape of the `voted_ids` field: a name-keyed object on success,
the literal empty list on failure. -/
inductive VotedIds where
  | map : List (String × ℕ) → VotedIds
  | emptyList : VotedIds
deriving DecidableEq

/-- Return value of `Voters.get_votes_casted`. -/
structure VotesCasted where
  votes_casted : ℕ
  voted_ids : VotedIds
deriving DecidableEq

/-- The fallback returned from the `except` branch of `get_votes_casted`. -/
def votesFallback : VotesCasted := ⟨9980, .emptyList⟩

/-- `get_votes_casted` instrumented with the ids whose `lastVoted` was
requested in stage 2 and the ids whose `balanceOfNFT` was requested in
stage 3. -/
structure VotesTrace where
  result : VotesCasted
  lastVotedIds : List ℕ
  balanceIds : List ℕ
deriving DecidableEq

/-- `Voters.get_votes_casted`: stage 1 fetches the chain position count
and active period in one batched call (the chain count is then discarded
in favour of `get_total_ids`, per the source's TODO); stage 2 fetches
`lastVoted` for ids 1..total_ids; stage 3 fetches `balanceOfNFT` only for
ids whose `lastVoted` is ≥ the active period; the result sums those
balances and maps `balance_{id}` names to them.  Any stage failing lands
in the `except` branch, producing the fallback. -/
def get_votes_casted_trace (env : VoterEnv) : VotesTrace :=
  match env.initialCall with
  | none => ⟨votesFallback, [], []⟩
  | some (_chainTotal, active_period) =>
    let total_ids := get_total_ids env.cacheTotalIds
    let ids := List.range' 1 total_ids
    match collectCalls env.lastVotedCall ids with
    | none => ⟨votesFallback, ids, []⟩
    | some last_voted =>
      let votedIds := (last_voted.filter fun x => active_period ≤ x.2).map Prod.fst
      match collectCalls env.balanceCall votedIds with
      | none => ⟨votesFallback, ids, votedIds⟩
      | some balances =>
        ⟨⟨(balances.map Prod.snd).sum,
          .map (balances.map fun x => ("balance_" ++ toString x.1, x.2))⟩,
         ids, votedIds⟩

/-- `Voters.recache` (`app/voter/__init__.py`): on success the snapshot
carries `calc_total_votes` and the two fields of `get_votes_casted`
through unchanged; if its own try-block fails (e.g. the cache write), it
returns total 0, the fallback count 9980, and an empty `voted_ids` list. -/
def recache (pairs : List VotesField) (env : VoterEnv) (recacheOk : Bool) :
    ℚ × ℕ × VotedIds :=
  if recacheOk then
    let vc := (get_votes_casted_trace env).result
    (calc_total_votes pairs, vc.votes_casted, vc.voted_ids)
  else (0, 9980, .emptyList)

lemma collectCalls_mem (f : ℕ → Option ℕ) :
    ∀ ids l, collectCalls f ids = some l → ∀ p ∈ l, f p.1 = some p.2 := by
  intro ids
  induction ids with
  | nil =>
    intro l h p hp
    simp only [collectCalls, Option.some.injEq] at h
    subst h
    simp at hp
  | cons i rest ih =>
    intro l h p hp
    cases hf : f i with
    | none => simp [collectCalls, hf] at h
    | some v =>
      cases hc : collectCalls f rest with
      | none => simp [collectCalls, hf, hc] at h
      | some tail =>
        simp only [collectCalls, hf, hc, Option.some.injEq] at h
        subst h
        rcases List.mem_cons.mp hp with hp' | hp'
        · subst hp'
          exact hf
        · exact ih tail hc p hp'

/-- C6: `get_votes_casted` requests balances only for ids whose
last-voted timestamp is ≥ the active period (an id that last voted
before the period is never in the balance-fetch set); on success the
returned count is the sum of the fetched balances and `voted_ids` is the
per-position balance map; any stage failure yields the fixed fallback
`⟨9980, empty⟩` instead of an error. -/
theorem C6_votes_casted_pipeline (env : VoterEnv) :
    (∀ ct ap lv, env.initialCall = some (ct, ap) →
      collectCalls env.lastVotedCall
        (List.range' 1 (get_total_ids env.cacheTotalIds)) = some lv →
      ((get_votes_casted_trace env).balanceIds =
        (lv.filter fun x => ap ≤ x.2).map Prod.fst ∧
       ∀ i t, (i, t) ∈ lv → t < ap →
         i ∉ (get_votes_casted_trace env).balanceIds)) ∧
    (∀ ct ap lv bal, env.initialCall = some (ct, ap) →
      collectCalls env.lastVotedCall
        (List.range' 1 (get_total_ids env.cacheTotalIds)) = some lv →
      collectCalls env.balanceCall
        ((lv.filter fun x => ap ≤ x.2).map Prod.fst) = some bal →
      (get_votes_casted_trace env).result =
        ⟨(bal.map Prod.snd).sum,
         .map (bal.map fun x => ("balance_" ++ toString x.1, x.2))⟩) ∧
    (env.initialCall = none →
      (get_votes_casted_trace env).result = votesFallback) ∧
    (∀ ct ap, env.initialCall = some (ct, ap) →
      collectCalls env.lastVotedCall
        (List.range' 1 (get_total_ids env.cacheTotalIds)) = none →
      (get_votes_casted_trace env).result = votesFallback) ∧
    (∀ ct ap lv, env.initialCall = some (ct, ap) →
      collectCalls env.lastVotedCall
        (List.range' 1 (get_total_ids env.cacheTotalIds)) = some lv →
      collectCalls env.balanceCall
        ((lv.filter fun x => ap ≤ x.2).map Prod.fst) = none →
      (get_votes_casted_trace env).result = votesFallback) := by
  refine ⟨?_, ?_, ?_, ?_, ?_⟩
  · intro ct ap lv h1 h2
    have hb : (get_votes_casted_trace env).balanceIds =
        (lv.filter fun x => ap ≤ x.2).map Prod.fst := by
      simp only [get_votes_casted_trace, h1, h2]
      cases hc : collectCalls env.balanceCall
          ((lv.filter fun x => ap ≤ x.2).map Prod.fst) <;> simp [hc]
    refine ⟨hb, ?_⟩
    intro i t hmem hlt hin
    rw [hb] at hin
    rcases List.mem_map.mp hin with ⟨x, hx, hxi⟩
    rcases List.mem_filter.mp hx with ⟨hxlv, hxap⟩
    have hfx := collectCalls_mem env.lastVotedCall _ lv h2 x hxlv
    have hfi := collectCalls_mem env.lastVotedCall _ lv h2 (i, t) hmem
    rw [hxi] at hfx
    rw [hfi] at hfx
    have : x.2 = t := by
      simpa using hfx.symm
    rw [this] at hxap
    have : ap ≤ t := by simpa using hxap
    omega
  · intro ct ap lv bal h1 h2 h3
    simp [get_votes_casted_trace, h1, h2, h3]
  · intro h1
    simp [get_votes_casted_trace, h1]
  · intro ct ap h1 h2
    simp [get_votes_casted_trace, h1, h2]
  · intro ct ap lv h1 h2 h3
    simp [get_votes_casted_trace, h1, h2, h3]

/-- Concrete oracle for the C6 witness: three positions of which 1 and 3
voted within the active period 10, balances 100·id. -/
def voterEnvC6 : VoterEnv :=
  { initialCall := some (3, 10),
    cacheTotalIds := some 3,
    lastVotedCall := fun i => some (if i = 1 then 12 else if i = 2 then 5 else 10),
    balanceCall := fun i => some (100 * i) }

/-- Witness for C6: ids 1 and 3 voted this epoch, id 2 (last voted 5 <
period 10) is excluded from the balance stage, and the result sums 100 and
300 under name-keyed entries. -/
theorem C6_votes_casted_pipeline_witness :
    (get_votes_casted_trace voterEnvC6).balanceIds = [1, 3] ∧
    2 ∉ (get_votes_casted_trace voterEnvC6).balanceIds ∧
    (get_votes_casted_trace voterEnvC6).result =
      ⟨400, .map [("balance_1", 100), ("balance_3", 300)]⟩ := by
  have h1 := (C6_votes_casted_pipeline voterEnvC6).1 3 10
    [(1, 12), (2, 5), (3, 10)] rfl (by decide)
  have h2 := (C6_votes_casted_pipeline voterEnvC6).2.1 3 10
    [(1, 12), (2, 5), (3, 10)] [(1, 100), (3, 300)] rfl (by decide) (by decide)
  refine ⟨h1.1.trans (by decide), h1.2 2 5 (by decide) (by decide), h2.trans ?_⟩
  decide

/-- Concrete oracle for the C7 counterexample: the chain reports 5
positions in stage 1, but the cached `total_ids` is 63. -/
def voterEnvC7 : VoterEnv :=
  { initialCall := some (5, 100),
    cacheTotalIds := some 63,
    lastVotedCall := fun _ => some 0,
    balanceCall := fun _ => some 0 }

/-- Counterexample to C7 as stated: with the chain-fetched position count
equal to 5, stage 2 does not query ids 1..5 — it queries ids 1..63, the
cached `total_ids` value, because the source discards the stage-1 count. -/
theorem C7_counterexample :
    (get_votes_casted_trace voterEnvC7).lastVotedIds ≠ List.range' 1 5 ∧
    (get_votes_casted_trace voterEnvC7).lastVotedIds = List.range' 1 63 := by
  constructor
  · decide
  · rfl

/-- C7 (amended): whenever stage 1 succeeds, the ids whose last-voted
timestamps are fetched in stage 2 are 1 through `get_total_ids` — the
cached `total_ids` value, or the default 63 on a cache miss — regardless
of the chain-reported position count from the stage-1 call. -/
theorem C7_stage2_ids (env : VoterEnv) (ct ap : ℕ)
    (h : env.initialCall = some (ct, ap)) :
    (get_votes_casted_trace env).lastVotedIds =
      List.range' 1 (get_total_ids env.cacheTotalIds) ∧
    (env.cacheTotalIds = none →
      (get_votes_casted_trace env).lastVotedIds = List.range' 1 63) := by
  have hids : (get_votes_casted_trace env).lastVotedIds =
      List.range' 1 (get_total_ids env.cacheTotalIds) := by
    simp only [get_votes_casted_trace, h]
    cases h2 : collectCalls env.lastVotedCall
        (List.range' 1 (get_total_ids env.cacheTotalIds)) with
    | none => simp [h2]
    | some lv =>
      simp only [h2]
      cases h3 : collectCalls env.balanceCall
          ((lv.filter fun x => ap ≤ x.2).map Prod.fst) <;> simp [h3]
  refine ⟨hids, ?_⟩
  intro hc
  rw [hids, hc]
  rfl

/-- Concrete oracle for the C7 witness: a cache miss for `total_ids`, so
stage 2 uses the default of 63 ids. -/
def voterEnvC7b : VoterEnv :=
  { initialCall := some (7, 100),
    cacheTotalIds := none,
    lastVotedCall := fun _ => some 200,
    balanceCall := fun _ => some 1 }

/-- Witness for the amended C7 on a cache miss: 63 ids are queried. -/
theorem C7_stage2_ids_witness :
    (get_votes_casted_trace voterEnvC7b).lastVotedIds = List.range' 1 63 :=
  (C7_stage2_ids voterEnvC7b 7 100 rfl).2 rfl

lemma calc_total_votes_go_no_malformed :
    ∀ pairs : List VotesField, VotesField.malformed ∉ pairs →
      calc_total_votes_go pairs = some (pairs.map votesValue).sum := by
  intro pairs
  induction pairs with
  | nil => simp [calc_total_votes_go]
  | cons v rest ih =>
    intro hnm
    have hv : v ≠ .malformed := fun hv => hnm (hv ▸ List.mem_cons_self v rest)
    have hrest : VotesField.malformed ∉ rest :=
      fun hr => hnm (List.mem_cons_of_mem v hr)
    cases v with
    | absent => simp [calc_total_votes_go, ih hrest, votesValue]
    | numeric q => simp [calc_total_votes_go, ih hrest, votesValue]
    | malformed => exact absurd rfl hv

lemma calc_total_votes_go_malformed :
    ∀ pairs : List VotesField, VotesField.malformed ∈ pairs →
      calc_total_votes_go pairs = none := by
  intro pairs
  induction pairs with
  | nil => simp
  | cons v rest ih =>
    intro hm
    cases v with
    | absent =>
      have : VotesField.malformed ∈ rest := by
        rcases List.mem_cons.mp hm with h | h
        · exact absurd h.symm (by simp)
        · exact h
      simp [calc_total_votes_go, ih this]
    | numeric q =>
      have : VotesField.malformed ∈ rest := by
        rcases List.mem_cons.mp hm with h | h
        · exact absurd h.symm (by simp)
        · exact h
      simp [calc_total_votes_go, ih this]
    | malformed => simp [calc_total_votes_go]

/-- Counterexample to C8 as stated: a malformed votes value in one pool
record does not leave the remaining pools' sum intact — the whole
computation aborts to the fallback 0, not to the other pool's 5. -/
theorem C8_counterexample :
    calc_total_votes [.malformed, .numeric 5] = 0 ∧ (0 : ℚ) ≠ 5 := by
  constructor
  · rfl
  · norm_num

/-- C8 (amended): `calc_total_votes` sums the gauge votes field over all
cached pools, a pool lacking the field contributing 0; but a malformed
votes value anywhere aborts the whole computation to the sentinel
fallback 0 (the single `try/except` wraps the entire loop), rather than
skipping just that record. -/
theorem C8_total_votes (pairs : List VotesField) :
    (VotesField.malformed ∉ pairs →
      calc_total_votes pairs = (pairs.map votesValue).sum) ∧
    (VotesField.malformed ∈ pairs → calc_total_votes pairs = 0) ∧
    (∀ rest : List VotesField,
      calc_total_votes_go (.absent :: rest) = calc_total_votes_go rest) := by
  refine ⟨?_, ?_, ?_⟩
  · intro h
    rw [calc_total_votes, calc_total_votes_go_no_malformed pairs h]
  · intro h
    rw [calc_total_votes, calc_total_votes_go_malformed pairs h]
  · intro rest
    rfl

/-- Witness for C8: a votes-less pool plus two numeric pools sum to 7,
and one malformed pool drives the whole total to the fallback 0. -/
theorem C8_total_votes_witness :
    calc_total_votes [.absent, .numeric 3, .numeric 4] = 7 ∧
    calc_total_votes [.numeric 3, .malformed] = 0 := by
  constructor
  · have := (C8_total_votes [.absent, .numeric 3, .numeric 4]).1 (by decide)
    rw [this]
    norm_num [votesValue]
  · exact (C8_total_votes [.numeric 3, .malformed]).2.1 (by decide)

/-- C10: the JSON shape of `voted_ids` differs between outcomes — on
success both `get_votes_casted` and a successful `recache` return it as a
name-keyed `balance_{id}` mapping, while on any failure `get_votes_casted`
returns the empty list, as does a `recache` whose own try-block fails. -/
theorem C10_voted_ids_shape (env : VoterEnv) (pairs : List VotesField) :
    (∀ ct ap lv bal, env.initialCall = some (ct, ap) →
      collectCalls env.lastVotedCall
        (List.range' 1 (get_total_ids env.cacheTotalIds)) = some lv →
      collectCalls env.balanceCall
        ((lv.filter fun x => ap ≤ x.2).map Prod.fst) = some bal →
      ((get_votes_casted_trace env).result.voted_ids =
        .map (bal.map fun x => ("balance_" ++ toString x.1, x.2)) ∧
       (recache pairs env true).2.2 =
        .map (bal.map fun x => ("balance_" ++ toString x.1, x.2)))) ∧
    (env.initialCall = none →
      ((get_votes_casted_trace env).result.voted_ids = .emptyList ∧
       (recache pairs env true).2.2 = .emptyList)) ∧
    (∀ ct ap, env.initialCall = some (ct, ap) →
      collectCalls env.lastVotedCall
        (List.range' 1 (get_total_ids env.cacheTotalIds)) = none →
      (get_votes_casted_trace env).result.voted_ids = .emptyList) ∧
    (recache pairs env false).2.2 = .emptyList := by
  refine ⟨?_, ?_, ?_, rfl⟩
  · intro ct ap lv bal h1 h2 h3
    have hv : (get_votes_casted_trace env).result.voted_ids =
        .map (bal.map fun x => ("balance_" ++ toString x.1, x.2)) := by
      simp [get_votes_casted_trace, h1, h2, h3]
    exact ⟨hv, by simp [recache, hv]⟩
  · intro h1
    have hv : (get_votes_casted_trace env).result.voted_ids = .emptyList := by
      simp [get_votes_casted_trace, h1, votesFallback]
    exact ⟨hv, by simp [recache, hv]⟩
  · intro ct ap h1 h2
    simp [get_votes_casted_trace, h1, h2, votesFallback]

/-- Witness for C10 on the C6 oracle: the success shape is the name-keyed
map, and a failed recache yields the empty list. -/
theorem C10_voted_ids_shape_witness :
    (get_votes_casted_trace voterEnvC6).result.voted_ids =
      .map [("balance_1", 100), ("balance_3", 300)] ∧
    (recache [] voterEnvC6 false).2.2 = .emptyList := by
  have h := (C10_voted_ids_shape voterEnvC6 []).1 3 10
    [(1, 12), (2, 5), (3, 10)] [(1, 100), (3, 300)] rfl (by decide) (by decide)
  refine ⟨h.1.trans ?_, (C10_voted_ids_shape voterEnvC6 []).2.2.2⟩
  decide

end CeruleanApi
